import Mathlib

/-!
Verification of the SQL query builder in `src/query.py` (class `Query`).

Python strings are modelled as `List Char` (a Python `str` is a sequence of
code points).  Each helper below models the corresponding Python operation:
`pyJoin` is `sep.join(list)`, `pyStrip` is `str.strip()` (ASCII whitespace),
`pyInsert` is `list.insert(idx, x)` (clamping past the end), `splitKeepEnds`
is `str.splitlines(keepends=True)` for strings whose only line break is
`'\n'`, and `pyIndent` is `textwrap.indent(text, '  ')` (the default
predicate skips whitespace-only lines).
-/

/-- A Python string: a sequence of code points. -/
abbrev PyStr := List Char

/-- Turn a Lean string literal into the `PyStr` model. -/
def lit (s : String) : PyStr := s.data

/-- Python `sep.join(xs)`. -/
def pyJoin (sep : PyStr) : List PyStr → PyStr
  | [] => []
  | [x] => x
  | x :: y :: rest => x ++ sep ++ pyJoin sep (y :: rest)

/-- ASCII whitespace, as stripped by Python `str.strip()`. -/
def isPySpace (c : Char) : Bool :=
  c = ' ' || c = '\t' || c = '\n' || c = '\r' || c = '\x0b' || c = '\x0c'

/-- Python `str.lstrip()`. -/
def pyLstrip (s : PyStr) : PyStr := s.dropWhile isPySpace

/-- Python `str.rstrip()`. -/
def pyRstrip (s : PyStr) : PyStr := (s.reverse.dropWhile isPySpace).reverse

/-- Python `str.strip()`. -/
def pyStrip (s : PyStr) : PyStr := pyRstrip (pyLstrip s)

/-- Python `str.splitlines(keepends=True)` for strings whose only line
break character is `'\n'`: each segment keeps its trailing newline. -/
def splitKeepEnds : PyStr → List PyStr
  | [] => []
  | c :: rest =>
    if c = '\n' then [c] :: splitKeepEnds rest
    else
      match splitKeepEnds rest with
      | [] => [[c]]
      | l :: ls => (c :: l) :: ls

/-- Python `textwrap.indent(text, '  ')`: prefix every line that is not
whitespace-only with two spaces. -/
def pyIndent (t : PyStr) : PyStr :=
  ((splitKeepEnds t).map (fun l => if l.all isPySpace then l else lit "  " ++ l)).flatten

/-- Python `list.insert(idx, x)` for a non-negative index (clamps past the
end). -/
def pyInsert (idx : Nat) (x : α) : List α → List α
  | [] => [x]
  | y :: ys =>
    match idx with
    | 0 => x :: y :: ys
    | n + 1 => y :: pyInsert n x ys

/-- Python `str(n)` for an integer. -/
def intStr (n : Int) : PyStr := (toString n).data

/-- The builder state of `Query.__init__` (src/query.py, lines 96-106):
table name, the six fragment lists, `_limit`/`_offset`, and the
`add_groupbys_to_select` flag.  `ctes` holds `(query, alias)` pairs. -/
inductive Query : Type where
  | mk (table : PyStr) (selects wheres orwheres groupbys orderbys : List PyStr)
       (ctes : List (Query × PyStr)) (limit offset : Option Int)
       (add_groupbys_to_select : Bool) : Query

/-- Constructor `Query(table)` with the default `add_groupbys_to_select=True`. -/
def newQuery (table : PyStr) : Query :=
  .mk table [] [] [] [] [] [] none none true

/-- The `_selects` field. -/
def Query.selects : Query → List PyStr
  | .mk _ s _ _ _ _ _ _ _ _ => s

/-- The loop of `Query.build`, lines 164-168: walk the group-by columns,
inserting each one missing from `_selects` at position `idx`, bumping `idx`
only after an insertion. -/
def addGroupbysLoop : List PyStr → List PyStr → Nat → List PyStr
  | [], sels, _ => sels
  | col :: rest, sels, idx =>
    if col ∈ sels then addGroupbysLoop rest sels idx
    else addGroupbysLoop rest (pyInsert idx col sels) (idx + 1)

/-- The `if self._wheres:` block of `Query.build`, lines 174-184: `WHERE `
plus the first condition, the remaining conditions with a leading
`' AND '`, then (if any) `' OR '` plus the first or-condition followed by
the remaining or-conditions joined by `' OR '` with no leading separator,
and a final newline. -/
def whereBlock : List PyStr → List PyStr → PyStr
  | [], _ => []
  | w :: ws, ows =>
    lit "WHERE " ++ w
      ++ (if ws = [] then [] else lit " AND " ++ pyJoin (lit " AND ") ws)
      ++ (match ows with
          | [] => []
          | o :: os => lit " OR " ++ o ++ (if os = [] then [] else pyJoin (lit " OR ") os))
      ++ lit "\n"

/-- Python truthiness of `self._limit` / `self._offset`: `None` and `0` are
falsy. -/
def truthyOpt : Option Int → Bool
  | none => false
  | some n => n != 0

mutual

/-- Model of `Query.build` (src/query.py, lines 162-193).  Because the method
mutates `self._selects` (group-by auto-inclusion) and, through
`_build_ctes`, mutates the embedded CTE queries by calling their `build`,
the model returns the rendered string together with the post-call builder
state. -/
def Query.build : Query → PyStr × Query
  | .mk table sels wheres orwheres gbs obs ctes lim off agts =>
    let sels := if gbs ≠ [] ∧ agts = true then addGroupbysLoop gbs sels 0 else sels
    let cteData := buildCteList ctes
    let q := if ctes.isEmpty then ([] : PyStr)
             else lit "WITH " ++ pyJoin (lit ",\n") (cteData.map Prod.fst) ++ lit "\n"
    let q := q ++ lit "SELECT " ++ pyJoin (lit ", ") (if sels = [] then [lit "*"] else sels) ++ lit "\n"
    let q := q ++ lit "FROM " ++ table ++ lit "\n"
    let q := q ++ whereBlock wheres orwheres
    let q := q ++ (if gbs = [] then [] else lit "GROUP BY " ++ pyJoin (lit ", ") gbs ++ lit "\n")
    let q := q ++ (if obs = [] then [] else lit "ORDER BY " ++ pyJoin (lit ", ") obs ++ lit "\n")
    let q := q ++ (match lim with
                   | some n => if n ≠ 0 then lit "LIMIT " ++ intStr n else []
                   | none => [])
    let q := q ++ (match off with
                   | some n => if n ≠ 0 then lit "OFFSET " ++ intStr n else []
                   | none => [])
    (pyStrip q, .mk table sels wheres orwheres gbs obs (cteData.map Prod.snd) lim off agts)

/-- The list comprehension of `Query._build_ctes` (lines 148-155): for each
`(query, alias)` pair, the fragment `alias AS (\n<indented build>\n)`
together with the post-build state of the embedded query. -/
def buildCteList : List (Query × PyStr) → List (PyStr × (Query × PyStr))
  | [] => []
  | (q, a) :: rest =>
    (a ++ lit " AS (\n" ++ pyIndent (Query.build q).fst ++ lit "\n)",
     ((Query.build q).snd, a)) :: buildCteList rest

end

/-- Model of `Query.select` (lines 108-113).  Python dispatches on the argument
type: `extend` for a list, `append` for a single string; since
`append c` is `extend [c]`, the single-string call `select(c)` is the
`[c]` instance of this model. -/
def Query.select : Query → List PyStr → Query
  | .mk t s w ow g o c l f a, cols => .mk t (s ++ cols) w ow g o c l f a

/-- Model of `Query.where` (lines 114-119); `where` is a Lean keyword, hence the
name.  Single-string calls are the one-element-list instance. -/
def Query.whereCl : Query → List PyStr → Query
  | .mk t s w ow g o c l f a, conds => .mk t s (w ++ conds) ow g o c l f a

/-- Model of `Query.orwhere` (lines 120-125).  Single-string calls are the
one-element-list instance. -/
def Query.orwhere : Query → List PyStr → Query
  | .mk t s w ow g o c l f a, conds => .mk t s w (ow ++ conds) g o c l f a

/-- Model of `Query.groupby` (lines 126-131).  Single-string calls are the
one-element-list instance. -/
def Query.groupby : Query → List PyStr → Query
  | .mk t s w ow g o c l f a, cols => .mk t s w ow (g ++ cols) o c l f a

/-- Model of `Query.orderby` (lines 132-137).  Single-string calls are the
one-element-list instance. -/
def Query.orderby : Query → List PyStr → Query
  | .mk t s w ow g o c l f a, cols => .mk t s w ow g (o ++ cols) c l f a

/-- Model of `Query.limit` (lines 138-140): overwrite `_limit`. -/
def Query.limit : Query → Int → Query
  | .mk t s w ow g o c _ f a, n => .mk t s w ow g o c (some n) f a

/-- Model of `Query.offset` (lines 141-143): overwrite `_offset`. -/
def Query.offset : Query → Int → Query
  | .mk t s w ow g o c l _ a, n => .mk t s w ow g o c l (some n) a

/-- Model of `Query.cte` (lines 144-146): append a `(query, alias)` pair. -/
def Query.cte : Query → Query → PyStr → Query
  | .mk t s w ow g o c l f a, sub, al => .mk t s w ow g o (c ++ [(sub, al)]) l f a

/-- A single configuration call together with its argument, used to state
order-independence of calls that target distinct clause types. -/
inductive OpArg : Type where
  | selectA (cols : List PyStr)
  | whereA (conds : List PyStr)
  | orwhereA (conds : List PyStr)
  | groupbyA (cols : List PyStr)
  | orderbyA (cols : List PyStr)
  | limitA (n : Int)
  | offsetA (n : Int)
  | cteA (sub : Query) (al : PyStr)

/-- Apply a configuration call to a builder. -/
def applyOp (q : Query) : OpArg → Query
  | .selectA cols => q.select cols
  | .whereA conds => q.whereCl conds
  | .orwhereA conds => q.orwhere conds
  | .groupbyA cols => q.groupby cols
  | .orderbyA cols => q.orderby cols
  | .limitA n => q.limit n
  | .offsetA n => q.offset n
  | .cteA sub al => q.cte sub al

/-- The clause type (builder field) a configuration call targets; two
calls are independent when these differ. -/
def OpArg.clauseIdx : OpArg → Nat
  | .selectA _ => 0
  | .whereA _ => 1
  | .orwhereA _ => 2
  | .groupbyA _ => 3
  | .orderbyA _ => 4
  | .limitA _ => 5
  | .offsetA _ => 6
  | .cteA _ _ => 7

/-- The sequence of group-by columns actually inserted by the loop of
lines 164-168: those not yet seen, in group-by order, first occurrence
only.  `seen` is the membership context the loop checks against. -/
def insAux : List PyStr → List PyStr → List PyStr
  | [], _ => []
  | col :: rest, seen =>
    if col ∈ seen then insAux rest seen else col :: insAux rest (col :: seen)

lemma pyInsert_append (done orig : List α) (x : α) :
    pyInsert done.length x (done ++ orig) = done ++ x :: orig := by
  induction done with
  | nil => cases orig <;> rfl
  | cons d ds ih => simpa [pyInsert] using ih

lemma insAux_congr {s t : List PyStr} (l : List PyStr) (h : ∀ x, x ∈ s ↔ x ∈ t) :
    insAux l s = insAux l t := by
  induction l generalizing s t with
  | nil => rfl
  | cons c rest ih =>
    simp only [insAux]
    by_cases hc : c ∈ s
    · rw [if_pos hc, if_pos ((h c).mp hc)]
      exact ih h
    · rw [if_neg hc, if_neg (fun hx => hc ((h c).mpr hx))]
      have h' : ∀ x, x ∈ c :: s ↔ x ∈ c :: t := by
        intro x; simp [h x]
      rw [ih h']

lemma addGroupbysLoop_eq (gbs : List PyStr) :
    ∀ done orig : List PyStr,
      addGroupbysLoop gbs (done ++ orig) done.length
        = done ++ insAux gbs (done ++ orig) ++ orig := by
  induction gbs with
  | nil => intro done orig; simp [addGroupbysLoop, insAux]
  | cons col rest ih =>
    intro done orig
    by_cases hc : col ∈ done ++ orig
    · simp only [addGroupbysLoop, insAux, if_pos hc]
      exact ih done orig
    · simp only [addGroupbysLoop, insAux, if_neg hc]
      rw [pyInsert_append]
      have h2 : done ++ col :: orig = (done ++ [col]) ++ orig := by simp
      have h1 : done.length + 1 = (done ++ [col]).length := by simp
      rw [h2, h1, ih (done ++ [col]) orig]
      have h3 : insAux rest ((done ++ [col]) ++ orig) = insAux rest (col :: (done ++ orig)) := by
        apply insAux_congr
        intro x
        simp only [List.mem_append, List.mem_cons, List.mem_singleton]
        tauto
      rw [h3]
      simp [List.append_assoc]

lemma addGroupbysLoop_zero (gbs sels : List PyStr) :
    addGroupbysLoop gbs sels 0 = insAux gbs sels ++ sels := by
  simpa using addGroupbysLoop_eq gbs [] sels

lemma not_mem_seen_of_mem_insAux :
    ∀ (l s : List PyStr) (x : PyStr), x ∈ insAux l s → x ∉ s := by
  intro l
  induction l with
  | nil => intro s x hx; simp [insAux] at hx
  | cons c rest ih =>
    intro s x hx
    simp only [insAux] at hx
    by_cases hc : c ∈ s
    · rw [if_pos hc] at hx
      exact ih s x hx
    · rw [if_neg hc] at hx
      rcases List.mem_cons.mp hx with h | h
      · subst h; exact hc
      · intro hs
        exact (ih _ x h) (List.mem_cons_of_mem _ hs)

lemma insAux_nodup : ∀ (l s : List PyStr), (insAux l s).Nodup := by
  intro l
  induction l with
  | nil => intro s; simp [insAux]
  | cons c rest ih =>
    intro s
    simp only [insAux]
    by_cases hc : c ∈ s
    · rw [if_pos hc]; exact ih s
    · rw [if_neg hc]
      refine List.nodup_cons.mpr ⟨?_, ih _⟩
      intro hmem
      exact (not_mem_seen_of_mem_insAux rest (c :: s) c hmem) (List.mem_cons_self c s)

lemma insAux_sublist : ∀ (l s : List PyStr), (insAux l s).Sublist l := by
  intro l
  induction l with
  | nil => intro s; simp [insAux]
  | cons c rest ih =>
    intro s
    simp only [insAux]
    by_cases hc : c ∈ s
    · rw [if_pos hc]
      exact (ih s).trans (List.sublist_cons_self c rest)
    · rw [if_neg hc]
      exact (ih (c :: s)).cons₂ c

lemma mem_insAux_or_seen :
    ∀ (l s : List PyStr) (x : PyStr), x ∈ l → x ∈ insAux l s ∨ x ∈ s := by
  intro l
  induction l with
  | nil => intro s x hx; simp at hx
  | cons c rest ih =>
    intro s x hx
    simp only [insAux]
    by_cases hc : c ∈ s
    · rw [if_pos hc]
      rcases List.mem_cons.mp hx with h | h
      · right; subst h; exact hc
      · exact ih s x h
    · rw [if_neg hc]
      rcases List.mem_cons.mp hx with h | h
      · left; subst h; exact List.mem_cons_self _ _
      · rcases ih (c :: s) x h with h1 | h1
        · left; exact List.mem_cons_of_mem _ h1
        · rcases List.mem_cons.mp h1 with h2 | h2
          · left; subst h2; exact List.mem_cons_self _ _
          · right; exact h2

lemma insAux_eq_self :
    ∀ (l s : List PyStr), l.Nodup → (∀ x ∈ l, x ∉ s) → insAux l s = l := by
  intro l
  induction l with
  | nil => intro s _ _; rfl
  | cons c rest ih =>
    intro s hnd hdis
    simp only [insAux]
    rw [if_neg (hdis c (List.mem_cons_self c rest))]
    congr 1
    apply ih (c :: s) (List.nodup_cons.mp hnd).2
    intro x hx hmem
    rcases List.mem_cons.mp hmem with h | h
    · exact (List.nodup_cons.mp hnd).1 (h ▸ hx)
    · exact hdis x (List.mem_cons_of_mem _ hx) h

lemma addGroupbysLoop_of_forall_mem :
    ∀ (gbs sels : List PyStr) (idx : Nat), (∀ c ∈ gbs, c ∈ sels) →
      addGroupbysLoop gbs sels idx = sels := by
  intro gbs
  induction gbs with
  | nil => intro sels idx _; rfl
  | cons c rest ih =>
    intro sels idx h
    simp only [addGroupbysLoop]
    rw [if_pos (h c (List.mem_cons_self c rest))]
    exact ih sels idx (fun x hx => h x (List.mem_cons_of_mem _ hx))

lemma mem_addGroupbysLoop_zero (gbs sels : List PyStr) :
    ∀ c ∈ gbs, c ∈ addGroupbysLoop gbs sels 0 := by
  intro c hc
  rw [addGroupbysLoop_zero]
  rcases mem_insAux_or_seen gbs sels c hc with h | h
  · exact List.mem_append.mpr (Or.inl h)
  · exact List.mem_append.mpr (Or.inr h)

lemma pyJoin_eq_flatten (sep : PyStr) : ∀ (x : PyStr) (xs : List PyStr),
    pyJoin sep (x :: xs) = x ++ (xs.map (fun y => sep ++ y)).flatten := by
  intro x xs
  induction xs generalizing x with
  | nil => simp [pyJoin]
  | cons y ys ih => simp [pyJoin, ih y, List.append_assoc]

lemma whereBlock_and_or (w : PyStr) (ws : List PyStr) (o1 o2 : PyStr) (os : List PyStr) :
    whereBlock (w :: ws) (o1 :: o2 :: os)
      = lit "WHERE " ++ pyJoin (lit " AND ") (w :: ws) ++ lit " OR " ++ o1 ++ o2
        ++ (os.map (fun o => lit " OR " ++ o)).flatten ++ lit "\n" := by
  cases ws with
  | nil => simp [whereBlock, pyJoin, pyJoin_eq_flatten, List.append_assoc]
  | cons y ys => simp [whereBlock, pyJoin, pyJoin_eq_flatten, List.append_assoc]

lemma whereBlock_and_only (w : PyStr) (ws : List PyStr) :
    whereBlock (w :: ws) []
      = lit "WHERE " ++ pyJoin (lit " AND ") (w :: ws) ++ lit "\n" := by
  cases ws with
  | nil => simp [whereBlock, pyJoin]
  | cons y ys => simp [whereBlock, pyJoin, pyJoin_eq_flatten, List.append_assoc]

lemma dropWhile_append_of_exists {p : Char → Bool} (a b : PyStr)
    (h : ∃ c ∈ a, p c = false) : (a ++ b).dropWhile p = a.dropWhile p ++ b := by
  induction a with
  | nil => simp at h
  | cons x xs ih =>
    by_cases hx : p x
    · simp only [List.cons_append, List.dropWhile_cons, hx, if_true]
      apply ih
      rcases h with ⟨c, hc, hpc⟩
      rcases List.mem_cons.mp hc with h1 | h1
      · subst h1; rw [hx] at hpc; cases hpc
      · exact ⟨c, h1, hpc⟩
    · simp only [List.cons_append, List.dropWhile_cons, hx, if_false]
      simp [List.dropWhile_cons, hx]

lemma pyRstrip_append (a b : PyStr) (h : ∃ c ∈ b, isPySpace c = false) :
    pyRstrip (a ++ b) = a ++ pyRstrip b := by
  unfold pyRstrip
  rw [List.reverse_append]
  rw [dropWhile_append_of_exists b.reverse a.reverse
        (by rcases h with ⟨c, hc, hp⟩; exact ⟨c, List.mem_reverse.mpr hc, hp⟩)]
  rw [List.reverse_append, List.reverse_reverse]

lemma pyStrip_cons_of_not_space (c : Char) (s : PyStr) (h : isPySpace c = false) :
    pyStrip (c :: s) = pyRstrip (c :: s) := by
  simp [pyStrip, pyLstrip, List.dropWhile_cons, h]

/-- One-step unfolding of `Query.build`, with the assembled string grouped
into one chunk per clause. -/
lemma build_eq (t : PyStr) (sels wheres orwheres gbs obs : List PyStr)
    (ctes : List (Query × PyStr)) (lim off : Option Int) (agts : Bool) :
    Query.build (.mk t sels wheres orwheres gbs obs ctes lim off agts)
      = (pyStrip (
          (if ctes.isEmpty then ([] : PyStr)
           else lit "WITH " ++ pyJoin (lit ",\n") ((buildCteList ctes).map Prod.fst) ++ lit "\n")
          ++ (lit "SELECT " ++ pyJoin (lit ", ")
                (if (if gbs ≠ [] ∧ agts = true then addGroupbysLoop gbs sels 0 else sels) = []
                 then [lit "*"]
                 else (if gbs ≠ [] ∧ agts = true then addGroupbysLoop gbs sels 0 else sels))
              ++ lit "\n")
          ++ (lit "FROM " ++ t ++ lit "\n")
          ++ whereBlock wheres orwheres
          ++ (if gbs = [] then [] else lit "GROUP BY " ++ pyJoin (lit ", ") gbs ++ lit "\n")
          ++ (if obs = [] then [] else lit "ORDER BY " ++ pyJoin (lit ", ") obs ++ lit "\n")
          ++ (match lim with
              | some n => if n ≠ 0 then lit "LIMIT " ++ intStr n else []
              | none => [])
          ++ (match off with
              | some n => if n ≠ 0 then lit "OFFSET " ++ intStr n else []
              | none => [])),
         .mk t (if gbs ≠ [] ∧ agts = true then addGroupbysLoop gbs sels 0 else sels)
            wheres orwheres gbs obs ((buildCteList ctes).map Prod.snd) lim off agts) := by
  simp [Query.build, List.append_assoc]

lemma dropWhile_append_of_all {p : Char → Bool} (x y : PyStr)
    (h : ∀ c ∈ x, p c = true) : (x ++ y).dropWhile p = y.dropWhile p := by
  induction x with
  | nil => rfl
  | cons a x ih =>
    simp only [List.cons_append, List.dropWhile_cons, h a (List.mem_cons_self a x), if_true]
    exact ih (fun c hc => h c (List.mem_cons_of_mem _ hc))

lemma pyRstrip_snoc (X : PyStr) (c : Char) (h : isPySpace c = false) :
    pyRstrip (X ++ [c]) = X ++ [c] := by
  unfold pyRstrip
  rw [List.reverse_append]
  simp [List.dropWhile_cons, h]

lemma pyRstrip_append_cases (A B : PyStr) :
    pyRstrip (A ++ B) = A ++ pyRstrip B ∨ pyRstrip (A ++ B) = pyRstrip A := by
  by_cases hB : ∃ c ∈ B, isPySpace c = false
  · left; exact pyRstrip_append A B hB
  · right
    push_neg at hB
    unfold pyRstrip
    rw [List.reverse_append,
        dropWhile_append_of_all B.reverse A.reverse
          (fun c hc => by
            have := hB c (List.mem_reverse.mp hc)
            revert this
            cases h : isPySpace c <;> simp)]

/-- Applying `pyStrip` to a string whose head is not whitespace and which splits as
`A ++ B` with `A` headed by the non-space `c`: only the tail is affected. -/
lemma pyStrip_decomp (c : Char) (A' B : PyStr) (hc : isPySpace c = false) :
    pyStrip ((c :: A') ++ B) = (c :: A') ++ pyRstrip B
      ∨ pyStrip ((c :: A') ++ B) = pyRstrip (c :: A') := by
  rw [List.cons_append, pyStrip_cons_of_not_space _ _ hc, ← List.cons_append]
  exact pyRstrip_append_cases (c :: A') B

/-- A block headed and ended by non-whitespace characters survives the
final `strip()` intact: only the tail after it can be trimmed. -/
lemma pyStrip_keep_block (c d : Char) (A M B : PyStr)
    (hc : isPySpace c = false) (hd : isPySpace d = false)
    (hM : c :: M ++ [d] = A) :
    ∃ rest, pyStrip (A ++ B) = A ++ rest := by
  subst hM
  rcases pyStrip_decomp c (M ++ [d]) B hc with h | h
  · exact ⟨pyRstrip B, h⟩
  · refine ⟨[], ?_⟩
    rw [List.append_nil]
    show pyStrip ((c :: (M ++ [d])) ++ B) = _
    rw [h]
    exact pyRstrip_snoc (c :: M) d hd

/-- The function `Query.build` rewritten with the assembled string split right after the
`FROM` keyword: prologue, select clause and `FROM` on the left, everything
else (table name onwards) on the right. -/
lemma build_fst_eq_strip (t : PyStr) (sels wheres orwheres gbs obs : List PyStr)
    (ctes : List (Query × PyStr)) (lim off : Option Int) (agts : Bool) :
    (Query.build (.mk t sels wheres orwheres gbs obs ctes lim off agts)).fst
      = pyStrip (((if ctes.isEmpty then ([] : PyStr)
            else lit "WITH " ++ pyJoin (lit ",\n") ((buildCteList ctes).map Prod.fst) ++ lit "\n")
          ++ lit "SELECT "
          ++ pyJoin (lit ", ")
               (if (if gbs ≠ [] ∧ agts = true then addGroupbysLoop gbs sels 0 else sels) = []
                then [lit "*"]
                else (if gbs ≠ [] ∧ agts = true then addGroupbysLoop gbs sels 0 else sels))
          ++ lit "\nFROM")
          ++ (lit " " ++ t ++ lit "\n"
            ++ whereBlock wheres orwheres
            ++ (if gbs = [] then [] else lit "GROUP BY " ++ pyJoin (lit ", ") gbs ++ lit "\n")
            ++ (if obs = [] then [] else lit "ORDER BY " ++ pyJoin (lit ", ") obs ++ lit "\n")
            ++ (match lim with
                | some n => if n ≠ 0 then lit "LIMIT " ++ intStr n else []
                | none => [])
            ++ (match off with
                | some n => if n ≠ 0 then lit "OFFSET " ++ intStr n else []
                | none => []))) := by
  rw [build_eq]
  have hr : ∀ r : PyStr, lit "\nFROM" ++ (lit " " ++ r) = lit "\n" ++ (lit "FROM " ++ r) := by
    intro r
    rw [← List.append_assoc, ← List.append_assoc,
        show lit "\nFROM" ++ lit " " = lit "\n" ++ lit "FROM " from by decide]
  simp [List.append_assoc, hr]

/-- Rendering always produces `<prologue>SELECT <columns>\nFROM<rest>`:
the trailing `strip()` cannot reach the prologue, the select clause or the
`FROM` keyword. -/
lemma build_fst_decomp (t : PyStr) (sels wheres orwheres gbs obs : List PyStr)
    (ctes : List (Query × PyStr)) (lim off : Option Int) (agts : Bool) :
    ∃ rest : PyStr,
      (Query.build (.mk t sels wheres orwheres gbs obs ctes lim off agts)).fst
        = (if ctes.isEmpty then ([] : PyStr)
           else lit "WITH " ++ pyJoin (lit ",\n") ((buildCteList ctes).map Prod.fst) ++ lit "\n")
          ++ lit "SELECT "
          ++ pyJoin (lit ", ")
               (if (if gbs ≠ [] ∧ agts = true then addGroupbysLoop gbs sels 0 else sels) = []
                then [lit "*"]
                else (if gbs ≠ [] ∧ agts = true then addGroupbysLoop gbs sels 0 else sels))
          ++ lit "\nFROM" ++ rest := by
  rw [build_fst_eq_strip]
  by_cases hc : ctes.isEmpty
  · rw [if_pos hc]
    have hA : (((([] : PyStr) ++ lit "SELECT ")
          ++ pyJoin (lit ", ")
               (if (if gbs ≠ [] ∧ agts = true then addGroupbysLoop gbs sels 0 else sels) = []
                then [lit "*"]
                else (if gbs ≠ [] ∧ agts = true then addGroupbysLoop gbs sels 0 else sels)))
          ++ lit "\nFROM")
        = 'S' :: ((lit "ELECT "
            ++ pyJoin (lit ", ")
               (if (if gbs ≠ [] ∧ agts = true then addGroupbysLoop gbs sels 0 else sels) = []
                then [lit "*"]
                else (if gbs ≠ [] ∧ agts = true then addGroupbysLoop gbs sels 0 else sels)))
            ++ lit "\nFRO") ++ ['M'] := by
      rw [show lit "SELECT " = 'S' :: lit "ELECT " from by decide,
          show lit "\nFROM" = lit "\nFRO" ++ ['M'] from by decide]
      simp [List.append_assoc]
    rw [hA]
    exact pyStrip_keep_block 'S' 'M' _ _ _ (by decide) (by decide) rfl
  · rw [if_neg hc]
    have hA : ((((lit "WITH " ++ pyJoin (lit ",\n") ((buildCteList ctes).map Prod.fst) ++ lit "\n")
          ++ lit "SELECT ")
          ++ pyJoin (lit ", ")
               (if (if gbs ≠ [] ∧ agts = true then addGroupbysLoop gbs sels 0 else sels) = []
                then [lit "*"]
                else (if gbs ≠ [] ∧ agts = true then addGroupbysLoop gbs sels 0 else sels)))
          ++ lit "\nFROM")
        = 'W' :: ((lit "ITH "
            ++ pyJoin (lit ",\n") ((buildCteList ctes).map Prod.fst) ++ lit "\n"
            ++ lit "SELECT "
            ++ pyJoin (lit ", ")
               (if (if gbs ≠ [] ∧ agts = true then addGroupbysLoop gbs sels 0 else sels) = []
                then [lit "*"]
                else (if gbs ≠ [] ∧ agts = true then addGroupbysLoop gbs sels 0 else sels)))
            ++ lit "\nFRO") ++ ['M'] := by
      rw [show lit "WITH " = 'W' :: lit "ITH " from by decide,
          show lit "\nFROM" = lit "\nFRO" ++ ['M'] from by decide]
      simp [List.append_assoc]
    rw [hA]
    exact pyStrip_keep_block 'W' 'M' _ _ _ (by decide) (by decide) rfl

/-- The rendered string is the `strip` of a prefix, the WHERE block, and a
suffix holding the remaining clauses. -/
lemma build_where_decomp (t : PyStr) (sels wheres orwheres gbs obs : List PyStr)
    (ctes : List (Query × PyStr)) (lim off : Option Int) (agts : Bool) :
    ∃ pre post,
      (Query.build (.mk t sels wheres orwheres gbs obs ctes lim off agts)).fst
        = pyStrip (pre ++ whereBlock wheres orwheres ++ post) := by
  refine ⟨(if ctes.isEmpty then ([] : PyStr)
           else lit "WITH " ++ pyJoin (lit ",\n") ((buildCteList ctes).map Prod.fst) ++ lit "\n")
          ++ lit "SELECT "
          ++ pyJoin (lit ", ")
               (if (if gbs ≠ [] ∧ agts = true then addGroupbysLoop gbs sels 0 else sels) = []
                then [lit "*"]
                else (if gbs ≠ [] ∧ agts = true then addGroupbysLoop gbs sels 0 else sels))
          ++ lit "\nFROM" ++ lit " " ++ t ++ lit "\n",
        (if gbs = [] then [] else lit "GROUP BY " ++ pyJoin (lit ", ") gbs ++ lit "\n")
          ++ (if obs = [] then [] else lit "ORDER BY " ++ pyJoin (lit ", ") obs ++ lit "\n")
          ++ (match lim with
              | some n => if n ≠ 0 then lit "LIMIT " ++ intStr n else []
              | none => [])
          ++ (match off with
              | some n => if n ≠ 0 then lit "OFFSET " ++ intStr n else []
              | none => []), ?_⟩
  rw [build_fst_eq_strip]
  congr 1
  simp [List.append_assoc]

/-- Claim C1: with a non-empty `whereConditions` list `w :: ws` and at
least two or-conditions `o1 :: o2 :: os`, the rendered WHERE clause is
`WHERE ` plus the AND-joined conditions, then ` OR ` plus the first
or-condition, then the remaining or-conditions as one block in which only
the third and later items carry an ` OR ` separator — so `o1` and `o2` are
concatenated with no separator.  The concrete instance shows the glued
output `WHERE w OR o1o2 OR o3`. -/
theorem c1_or_conditions_undelimited (t : PyStr) (sels : List PyStr) (w : PyStr)
    (ws : List PyStr) (o1 o2 : PyStr) (os gbs obs : List PyStr)
    (ctes : List (Query × PyStr)) (lim off : Option Int) (agts : Bool) :
    (∃ pre post,
      (Query.build (.mk t sels (w :: ws) (o1 :: o2 :: os) gbs obs ctes lim off agts)).fst
        = pyStrip (pre
            ++ (lit "WHERE " ++ pyJoin (lit " AND ") (w :: ws)
                ++ lit " OR " ++ o1 ++ o2
                ++ (os.map (fun o => lit " OR " ++ o)).flatten ++ lit "\n")
            ++ post))
    ∧ (Query.build (Query.orwhere (Query.whereCl (newQuery (lit "t")) [lit "w"])
        [lit "o1", lit "o2", lit "o3"])).fst
      = lit "SELECT *\nFROM t\nWHERE w OR o1o2 OR o3" := by
  constructor
  · obtain ⟨pre, post, h⟩ :=
      build_where_decomp t sels (w :: ws) (o1 :: o2 :: os) gbs obs ctes lim off agts
    rw [whereBlock_and_or] at h
    exact ⟨pre, post, h⟩
  · decide

/-- Claim C7: with a non-empty `whereConditions` list and no
or-conditions, the WHERE clause is `WHERE ` followed by the conditions
joined by ` AND `; concretely,
`newQuery('t').where(['a > 1','b < 2']).build()` is
`SELECT *\nFROM t\nWHERE a > 1 AND b < 2`. -/
theorem c7_where_and_join (t : PyStr) (sels : List PyStr) (w : PyStr)
    (ws gbs obs : List PyStr) (ctes : List (Query × PyStr))
    (lim off : Option Int) (agts : Bool) :
    (∃ pre post,
      (Query.build (.mk t sels (w :: ws) [] gbs obs ctes lim off agts)).fst
        = pyStrip (pre
            ++ (lit "WHERE " ++ pyJoin (lit " AND ") (w :: ws) ++ lit "\n")
            ++ post))
    ∧ (Query.build (Query.whereCl (newQuery (lit "t")) [lit "a > 1", lit "b < 2"])).fst
      = lit "SELECT *\nFROM t\nWHERE a > 1 AND b < 2" := by
  constructor
  · obtain ⟨pre, post, h⟩ :=
      build_where_decomp t sels (w :: ws) [] gbs obs ctes lim off agts
    rw [whereBlock_and_only] at h
    exact ⟨pre, post, h⟩
  · decide

/-- Claim C5: with an empty `whereConditions` list the or-conditions are
never rendered — the output is the same as with no or-conditions at all —
and the WHERE block contributes nothing to the assembled string. -/
theorem c5_empty_where_ignores_orwheres (t : PyStr) (sels orwheres gbs obs : List PyStr)
    (ctes : List (Query × PyStr)) (lim off : Option Int) (agts : Bool) :
    (Query.build (.mk t sels [] orwheres gbs obs ctes lim off agts)).fst
      = (Query.build (.mk t sels [] [] gbs obs ctes lim off agts)).fst
    ∧ whereBlock [] orwheres = [] := by
  constructor
  · simp only [build_fst_eq_strip, whereBlock]
  · rfl

/-- Claim C4 evidence: with `limit=5` and `offset=3` on table `t`, the
code renders `LIMIT 5OFFSET 3` — the two clauses are concatenated with no
separator because neither emission appends a newline. -/
theorem c4_limit_offset_glued_eval :
    (Query.build (.mk (lit "t") [] [] [] [] [] [] (some 5) (some 3) true)).fst
      = lit "SELECT *\nFROM t\nLIMIT 5OFFSET 3" := by decide

/-- Claim C9: whenever the select-column list is empty at render time
(i.e. after the group-by auto-inclusion step), the select clause is
`SELECT *`; in particular `newQuery('t').build()` is exactly
`SELECT *\nFROM t`. -/
theorem c9_empty_select_emits_star (t : PyStr) (sels wheres orwheres gbs obs : List PyStr)
    (ctes : List (Query × PyStr)) (lim off : Option Int) (agts : Bool)
    (h : (if gbs ≠ [] ∧ agts = true then addGroupbysLoop gbs sels 0 else sels) = []) :
    (∃ pre rest,
      (Query.build (.mk t sels wheres orwheres gbs obs ctes lim off agts)).fst
        = pre ++ lit "SELECT *\nFROM" ++ rest)
    ∧ (Query.build (newQuery (lit "t"))).fst = lit "SELECT *\nFROM t" := by
  constructor
  · obtain ⟨rest, hres⟩ := build_fst_decomp t sels wheres orwheres gbs obs ctes lim off agts
    rw [h] at hres
    rw [show pyJoin (lit ", ")
          (if ([] : List PyStr) = [] then [lit "*"] else ([] : List PyStr)) = lit "*"
        from by decide] at hres
    refine ⟨(if ctes.isEmpty then ([] : PyStr)
             else lit "WITH " ++ pyJoin (lit ",\n") ((buildCteList ctes).map Prod.fst) ++ lit "\n"),
            rest, ?_⟩
    rw [hres, show lit "SELECT *\nFROM" = lit "SELECT " ++ lit "*" ++ lit "\nFROM" from by decide]
    simp [List.append_assoc]
  · decide

/-- Witness for C9 at the all-empty builder on table `t`. -/
theorem c9_empty_select_emits_star_witness :
    ((if ([] : List PyStr) ≠ [] ∧ (true : Bool) = true
      then addGroupbysLoop [] [] 0 else ([] : List PyStr)) = [])
    ∧ ((∃ pre rest,
        (Query.build (.mk (lit "t") [] [] [] [] [] [] none none true)).fst
          = pre ++ lit "SELECT *\nFROM" ++ rest)
      ∧ (Query.build (newQuery (lit "t"))).fst = lit "SELECT *\nFROM t") :=
  ⟨by decide,
   c9_empty_select_emits_star (lit "t") [] [] [] [] [] [] none none true (by decide)⟩

/-- Claim C10 counterexample: with duplicated group-by columns
`['x','x']` and an empty select list, the code renders `SELECT x` — the
select clause `SELECT x, x` predicted by "the group-by columns joined by
`, `" does not occur anywhere in the output. -/
theorem c10_duplicate_groupbys_counterexample :
    (Query.build (.mk (lit "t") [] [] [] [lit "x", lit "x"] [] [] none none true)).fst
      = lit "SELECT x\nFROM t\nGROUP BY x, x"
    ∧ ¬ ∃ pre rest,
        (Query.build (.mk (lit "t") [] [] [] [lit "x", lit "x"] [] [] none none true)).fst
          = pre ++ (lit "SELECT " ++ pyJoin (lit ", ") [lit "x", lit "x"] ++ lit "\nFROM") ++ rest := by
  refine ⟨by decide, ?_⟩
  rintro ⟨pre, rest, hh⟩
  have hc : (Query.build (.mk (lit "t") [] [] [] [lit "x", lit "x"] [] [] none none true)).fst
      = lit "SELECT x\nFROM t\nGROUP BY x, x" := by decide
  have h2 : (lit "SELECT " ++ pyJoin (lit ", ") [lit "x", lit "x"] ++ lit "\nFROM")
      <:+: lit "SELECT x\nFROM t\nGROUP BY x, x" := ⟨pre, rest, hh.symm.trans hc⟩
  exact absurd h2 (by decide)

/-- Claim C10 as amended: with the auto-include flag set, an empty select
list and non-empty group-by columns, the select clause renders the
distinct group-by columns — first occurrences, in group-by order
(`insAux gbs []`) — joined by `, `, not `SELECT *`. -/
theorem c10_distinct_groupbys_replace_empty_select (t : PyStr)
    (wheres orwheres : List PyStr) (g : PyStr) (gs obs : List PyStr)
    (ctes : List (Query × PyStr)) (lim off : Option Int) :
    ∃ pre rest,
      (Query.build (.mk t [] wheres orwheres (g :: gs) obs ctes lim off true)).fst
        = pre ++ lit "SELECT " ++ pyJoin (lit ", ") (insAux (g :: gs) []) ++ lit "\nFROM" ++ rest := by
  obtain ⟨rest, hres⟩ := build_fst_decomp t [] wheres orwheres (g :: gs) obs ctes lim off true
  rw [if_pos (And.intro (List.cons_ne_nil g gs) rfl)] at hres
  rw [addGroupbysLoop_zero, List.append_nil] at hres
  rw [if_neg (by simp [insAux] : ¬ insAux (g :: gs) [] = [])] at hres
  exact ⟨_, rest, hres⟩

/-- Claim C2: with the auto-include flag set and non-empty group-by
columns, `build()` mutates the select list to `insAux gbs sels ++ sels`:
the missing group-by columns form a prefix block (in group-by order, no
duplicates, each absent from the original selects), pre-existing select
columns all follow, and every group-by column ends up selected. -/
theorem c2_groupby_auto_include (t : PyStr) (sels wheres orwheres : List PyStr)
    (g : PyStr) (gs obs : List PyStr) (ctes : List (Query × PyStr))
    (lim off : Option Int) :
    (Query.build (.mk t sels wheres orwheres (g :: gs) obs ctes lim off true)).snd.selects
        = insAux (g :: gs) sels ++ sels
      ∧ (insAux (g :: gs) sels).Sublist (g :: gs)
      ∧ (insAux (g :: gs) sels).Nodup
      ∧ (∀ c ∈ insAux (g :: gs) sels, c ∉ sels)
      ∧ (∀ c ∈ g :: gs,
          c ∈ (Query.build (.mk t sels wheres orwheres (g :: gs) obs ctes lim off true)).snd.selects) := by
  have hsnd : (Query.build (.mk t sels wheres orwheres (g :: gs) obs ctes lim off true)).snd.selects
      = addGroupbysLoop (g :: gs) sels 0 := by
    rw [build_eq, if_pos (And.intro (List.cons_ne_nil g gs) rfl)]
    rfl
  refine ⟨?_, insAux_sublist _ _, insAux_nodup _ _,
          fun c hc => not_mem_seen_of_mem_insAux _ _ c hc, ?_⟩
  · rw [hsnd, addGroupbysLoop_zero]
  · intro c hc
    rw [hsnd]
    exact mem_addGroupbysLoop_zero _ _ c hc

lemma buildCteList_map_fst (ctes : List (Query × PyStr)) :
    (buildCteList ctes).map Prod.fst
      = ctes.map (fun p => p.2 ++ lit " AS (\n" ++ pyIndent (Query.build p.1).fst ++ lit "\n)") := by
  induction ctes with
  | nil => rfl
  | cons p rest ih =>
    obtain ⟨q, a⟩ := p
    simp only [buildCteList, List.map_cons, ih]

/-- Claim C6: with a non-empty CTE list, the output begins with a `WITH`
prologue listing, in insertion order, each alias followed by ` AS (`, the
embedded builder's rendered output indented by one level, and `)`, the
entries joined by `,\n`, ending with a newline before the outer `SELECT`;
concretely `newQuery('a').cte(newQuery('b'), 'cte1').build()` is
`WITH cte1 AS (\n  SELECT *\n  FROM b\n)\nSELECT *\nFROM a`. -/
theorem c6_cte_prologue (t : PyStr) (sels wheres orwheres gbs obs : List PyStr)
    (e : Query × PyStr) (cs : List (Query × PyStr)) (lim off : Option Int) (agts : Bool) :
    (∃ rest,
      (Query.build (.mk t sels wheres orwheres gbs obs (e :: cs) lim off agts)).fst
        = lit "WITH "
          ++ pyJoin (lit ",\n")
               ((e :: cs).map (fun p =>
                  p.2 ++ lit " AS (\n" ++ pyIndent (Query.build p.1).fst ++ lit "\n)"))
          ++ lit "\n" ++ lit "SELECT " ++ rest)
    ∧ (Query.build (Query.cte (newQuery (lit "a")) (newQuery (lit "b")) (lit "cte1"))).fst
      = lit "WITH cte1 AS (\n  SELECT *\n  FROM b\n)\nSELECT *\nFROM a" := by
  constructor
  · obtain ⟨rest, hres⟩ := build_fst_decomp t sels wheres orwheres gbs obs (e :: cs) lim off agts
    rw [show (e :: cs).isEmpty = false from rfl] at hres
    rw [if_neg (by simp)] at hres
    rw [buildCteList_map_fst] at hres
    refine ⟨pyJoin (lit ", ")
              (if (if gbs ≠ [] ∧ agts = true then addGroupbysLoop gbs sels 0 else sels) = []
               then [lit "*"]
               else (if gbs ≠ [] ∧ agts = true then addGroupbysLoop gbs sels 0 else sels))
            ++ lit "\nFROM" ++ rest, ?_⟩
    rw [hres]
    simp [List.append_assoc]
  · decide

lemma buildCteList_idem (ctes : List (Query × PyStr))
    (H : ∀ p ∈ ctes, Query.build (Query.build p.1).snd = Query.build p.1) :
    buildCteList ((buildCteList ctes).map Prod.snd) = buildCteList ctes := by
  induction ctes with
  | nil => rfl
  | cons p rest ih =>
    obtain ⟨q, a⟩ := p
    have h1 : Query.build (Query.build q).snd = Query.build q := by
      have := H (q, a) (List.mem_cons_self _ _)
      simpa using this
    simp only [buildCteList, List.map_cons]
    rw [h1, ih (fun p hp => H p (List.mem_cons_of_mem _ hp))]

lemma mapsnd_buildCteList_isEmpty (ctes : List (Query × PyStr)) :
    ((buildCteList ctes).map Prod.snd).isEmpty = ctes.isEmpty := by
  cases ctes with
  | nil => rfl
  | cons p rest => obtain ⟨q, a⟩ := p; rfl

lemma build_idem_aux : ∀ n : Nat, ∀ q : Query, sizeOf q ≤ n →
    Query.build (Query.build q).snd = Query.build q := by
  intro n
  induction n with
  | zero =>
    intro q h
    cases q with
    | mk t sels wheres orwheres gbs obs ctes lim off agts =>
      simp [Query.mk.sizeOf_spec] at h
  | succ n ih =>
    intro q h
    cases q with
    | mk t sels wheres orwheres gbs obs ctes lim off agts =>
      have hctes : ∀ p ∈ ctes, Query.build (Query.build p.1).snd = Query.build p.1 := by
        intro p hp
        apply ih
        have h1 : sizeOf p < sizeOf ctes := List.sizeOf_lt_of_mem hp
        have h2 : sizeOf p.1 < sizeOf p := by
          obtain ⟨q', a'⟩ := p
          simp [Prod.mk.sizeOf_spec]
          omega
        have h3 : sizeOf ctes
            < sizeOf (Query.mk t sels wheres orwheres gbs obs ctes lim off agts) := by
          simp [Query.mk.sizeOf_spec]
          omega
        omega
      have hsels : (if gbs ≠ [] ∧ agts = true
            then addGroupbysLoop gbs
              (if gbs ≠ [] ∧ agts = true then addGroupbysLoop gbs sels 0 else sels) 0
            else (if gbs ≠ [] ∧ agts = true then addGroupbysLoop gbs sels 0 else sels))
          = (if gbs ≠ [] ∧ agts = true then addGroupbysLoop gbs sels 0 else sels) := by
        by_cases hcond : gbs ≠ [] ∧ agts = true
        · simp only [if_pos hcond]
          exact addGroupbysLoop_of_forall_mem gbs _ 0 (mem_addGroupbysLoop_zero gbs sels)
        · rw [if_neg hcond]
      have step1 : Query.build
            (Query.build (Query.mk t sels wheres orwheres gbs obs ctes lim off agts)).snd
          = Query.build (Query.mk t
              (if gbs ≠ [] ∧ agts = true then addGroupbysLoop gbs sels 0 else sels)
              wheres orwheres gbs obs ((buildCteList ctes).map Prod.snd) lim off agts) := by
        conv_lhs => rw [build_eq]
      rw [step1, build_eq, build_eq, hsels, buildCteList_idem ctes hctes,
          mapsnd_buildCteList_isEmpty]

lemma build_idem (q : Query) : Query.build (Query.build q).snd = Query.build q :=
  build_idem_aux (sizeOf q) q (Nat.le_refl _)

/-- Claim C3: for every builder — whatever its group-by columns, CTE
entries or other configuration — calling `build()` twice in succession
yields identical output strings: the group-by auto-inclusion checks
membership before inserting, so the second render (on the mutated state)
changes nothing. -/
theorem c3_build_idempotent (q : Query) :
    (Query.build (Query.build q).snd).fst = (Query.build q).fst := by
  rw [build_idem]

/-- Claim C8: two configuration calls that target distinct clause types
(distinct builder fields) can be applied in either order with identical
`build()` output. -/
theorem c8_independent_calls_commute (q : Query) (o1 o2 : OpArg)
    (h : o1.clauseIdx ≠ o2.clauseIdx) :
    (Query.build (applyOp (applyOp q o1) o2)).fst
      = (Query.build (applyOp (applyOp q o2) o1)).fst := by
  have hq : applyOp (applyOp q o1) o2 = applyOp (applyOp q o2) o1 := by
    cases q with
    | mk t s w ow g o c l f a =>
      cases o1 <;> cases o2 <;>
        first
          | rfl
          | exact absurd rfl h
  rw [hq]

/-- Witness for C8: a `select` call and a `where` call on `newQuery('t')`
commute. -/
theorem c8_independent_calls_commute_witness :
    ((OpArg.selectA [lit "a"]).clauseIdx ≠ (OpArg.whereA [lit "w"]).clauseIdx)
    ∧ (Query.build (applyOp (applyOp (newQuery (lit "t")) (OpArg.selectA [lit "a"]))
          (OpArg.whereA [lit "w"]))).fst
      = (Query.build (applyOp (applyOp (newQuery (lit "t")) (OpArg.whereA [lit "w"]))
          (OpArg.selectA [lit "a"]))).fst :=
  ⟨by decide,
   c8_independent_calls_commute (newQuery (lit "t")) (OpArg.selectA [lit "a"])
     (OpArg.whereA [lit "w"]) (by decide)⟩


